import Mathlib

/-!
Verification development for the mosdns hot-reload subsystem.

This file gives a shallow embedding of:
* `plugin/data_provider/shared/watcher.go` — `FileWatcher` (`Start`, `Close`,
  the event loop and its debounce gate, and the remove/rename recovery task);
* the `ip_set` plugin (`rebuildMatcher`, `LoadFromIPs`, `LoadFromFiles`,
  `LoadFromFile`, `MatcherGroup.Match`);
* the `domain_set` plugin (`rebuildMatcher`, `LoadExps`, `LoadFiles`,
  `LoadFile`).

Time is modelled in milliseconds as `Nat`.  The fsnotify event source is
modelled as a list of events; the single-threaded event loop of the Go code
processes them in order.  External collaborators (fsnotify registration,
`os.Stat`, file contents, the list-file text formats and the plugin registry)
are modelled as explicit function parameters supplied to the embedded code,
so every definition stays executable.
-/

/-- One fsnotify event, as consumed by `(*FileWatcher).loop`.  The `op`
bitmask of fsnotify is represented by one Boolean per bit.  `time` is the
instant (ms) at which the loop processes the event (the `time.Now()` of the
debounce check); `fileExists` is the answer `os.Stat` would give for
`event.Name` at that instant. -/
structure FsEvent where
  name : String
  create : Bool
  write : Bool
  remove : Bool
  rename : Bool
  chmod : Bool
  time : Nat
  fileExists : Bool
deriving DecidableEq, Repr

/-- The loop-visible state of a `FileWatcher`: the registered file set
`files` (read-only inside the loop), the configured `debounce` duration and
the `lastReload` timestamp guarded by `lastReloadMu`. -/
structure LoopState where
  files : List String
  debounce : Nat
  lastReload : Nat
deriving DecidableEq, Repr

/-- One iteration of the event branch of `(*FileWatcher).loop`
(watcher.go:88-192), translated clause by clause:
1. events for non-monitored names are ignored;
2. Remove/Rename spawn the recovery goroutine and `continue` (no dispatch,
   no debounce update) — the recovery task itself is `recoveryTask` below;
3. Create re-adds the file and `continue`s (no dispatch);
4. Write/Chmod: a Chmod event whose file no longer exists is skipped;
   otherwise the debounce gate `time.Since(lastReload) >= debounce`
   (written here as `lastReload + debounce ≤ now`, the same inequality) is
   consulted; on pass, `lastReload` is set to now and the callback is
   dispatched asynchronously with the event's name.
The returned `Option` is the dispatched callback invocation (name and
dispatch time), `none` when no reload is dispatched. -/
def handleEvent (s : LoopState) (e : FsEvent) : LoopState × Option (String × Nat) :=
  if ¬ s.files.contains e.name then (s, none)
  else if e.remove || e.rename then (s, none)
  else if e.create then (s, none)
  else if e.write || e.chmod then
    if e.chmod && !e.fileExists then (s, none)
    else if s.lastReload + s.debounce ≤ e.time then
      ({ s with lastReload := e.time }, some (e.name, e.time))
    else (s, none)
  else (s, none)

/-- The event loop run over a finite trace of events, collecting every
dispatched reload invocation in order. -/
def runLoop (s : LoopState) : List FsEvent → LoopState × List (String × Nat)
  | [] => (s, [])
  | e :: es =>
    match handleEvent s e with
    | (s1, none) =>
      runLoop s1 es
    | (s1, some d) =>
      let r := runLoop s1 es
      (r.fst, d :: r.snd)

/-- The loop reads its channel until the channel is closed (`!ok`), at which
point it returns; `none` models a closed channel, and anything after it is
never processed (watcher.go:90-94). -/
def takeUntilClosed : List (Option FsEvent) → List FsEvent
  | [] => []
  | none :: _ => []
  | some e :: ms => e :: takeUntilClosed ms

/-- The full loop body: initialize `lastReload` to the loop's start time
(watcher.go:82-84) and process channel messages until the channel closes. -/
def loopFrom (files : List String) (debounce startTime : Nat)
    (msgs : List (Option FsEvent)) : LoopState × List (String × Nat) :=
  runLoop ⟨files, debounce, startTime⟩ (takeUntilClosed msgs)

/-- `chronoFrom lo es` states that the trace `es` is chronological: event
times are nondecreasing and all at or after `lo`.  This is the physical
monotonicity of the loop's clock. -/
def chronoFrom (lo : Nat) : List FsEvent → Bool
  | [] => true
  | e :: es => decide (lo ≤ e.time) && chronoFrom e.time es

/-- `sepFrom d lo ts` states that the times `ts` each keep distance at least
`d` from their predecessor, starting from `lo`. -/
def sepFrom (d lo : Nat) : List Nat → Bool
  | [] => true
  | t :: ts => decide (lo + d ≤ t) && sepFrom d t ts

/-- Times of the dispatched reload invocations of a run. -/
def dispatchTimes (ds : List (String × Nat)) : List Nat :=
  ds.map Prod.snd

-- Basic facts about `handleEvent`.

theorem handleEvent_files (s : LoopState) (e : FsEvent) :
    (handleEvent s e).fst.files = s.files := by
  unfold handleEvent
  split <;> try rfl
  split <;> try rfl
  split <;> try rfl
  split
  · split <;> try rfl
    split <;> rfl
  · rfl

theorem handleEvent_debounce (s : LoopState) (e : FsEvent) :
    (handleEvent s e).fst.debounce = s.debounce := by
  unfold handleEvent
  split <;> try rfl
  split <;> try rfl
  split <;> try rfl
  split
  · split <;> try rfl
    split <;> rfl
  · rfl

/-- On a skip, the state is unchanged; on a dispatch, `lastReload` becomes
the event time and the dispatch carries the event's name and time. -/
theorem handleEvent_cases (s : LoopState) (e : FsEvent) :
    handleEvent s e = (s, none) ∨
      (handleEvent s e = ({ s with lastReload := e.time }, some (e.name, e.time)) ∧
        s.lastReload + s.debounce ≤ e.time) := by
  unfold handleEvent
  split
  · exact Or.inl rfl
  split
  · exact Or.inl rfl
  split
  · exact Or.inl rfl
  split
  · split
    · exact Or.inl rfl
    split
    · next h => exact Or.inr ⟨rfl, h⟩
    · exact Or.inl rfl
  · exact Or.inl rfl

theorem chronoFrom_weaken {lo lo2 : Nat} (h : lo2 ≤ lo) :
    ∀ es, chronoFrom lo es = true → chronoFrom lo2 es = true := by
  intro es
  cases es with
  | nil => intro _; rfl
  | cons e es =>
    intro hc
    simp only [chronoFrom, Bool.and_eq_true, decide_eq_true_eq] at hc ⊢
    exact ⟨Nat.le_trans h hc.1, hc.2⟩

/-- Core debounce invariant: over a chronological trace, the dispatch times
produced by the loop are separated by at least the debounce duration,
starting at least `debounce` after the initial `lastReload` value. -/
theorem runLoop_sep (d : Nat) :
    ∀ (es : List FsEvent) (s : LoopState), s.debounce = d →
      chronoFrom s.lastReload es = true →
      sepFrom d s.lastReload (dispatchTimes (runLoop s es).snd) = true := by
  intro es
  induction es with
  | nil => intro s _ _; rfl
  | cons e es ih =>
    intro s hd hc
    simp only [chronoFrom, Bool.and_eq_true, decide_eq_true_eq] at hc
    rcases handleEvent_cases s e with h | ⟨h, hle⟩
    · have : runLoop s (e :: es) = runLoop s es := by
        simp only [runLoop, h]
      rw [this]
      exact ih s hd (chronoFrom_weaken hc.1 es hc.2)
    · have hrun : runLoop s (e :: es) =
          (let r := runLoop { s with lastReload := e.time } es
           (r.fst, (e.name, e.time) :: r.snd)) := by
        simp only [runLoop, h]
      rw [hrun]
      simp only [dispatchTimes, List.map_cons, sepFrom, Bool.and_eq_true,
        decide_eq_true_eq]
      constructor
      · simpa [hd] using hle
      · exact ih { s with lastReload := e.time } hd hc.2

theorem sepFrom_ge (d : Nat) :
    ∀ (ts : List Nat) (lo : Nat), sepFrom d lo ts = true →
      ∀ t ∈ ts, lo + d ≤ t := by
  intro ts
  induction ts with
  | nil => intro lo _ t ht; cases ht
  | cons t0 ts ih =>
    intro lo hs t ht
    simp only [sepFrom, Bool.and_eq_true, decide_eq_true_eq] at hs
    rcases List.mem_cons.mp ht with rfl | ht
    · exact hs.1
    · have := ih t0 hs.2 t ht
      omega

theorem sepFrom_pairwise (d : Nat) :
    ∀ (ts : List Nat) (lo : Nat), sepFrom d lo ts = true →
      List.Pairwise (fun a b => a + d ≤ b) ts := by
  intro ts
  induction ts with
  | nil => intro _ _; exact List.Pairwise.nil
  | cons t0 ts ih =>
    intro lo hs
    simp only [sepFrom, Bool.and_eq_true, decide_eq_true_eq] at hs
    exact List.Pairwise.cons (sepFrom_ge d ts t0 hs.2) (ih t0 hs.2)

/-- Every dispatch time of a run is the processing time of some event of the
trace. -/
theorem runLoop_dispatch_time_mem :
    ∀ (es : List FsEvent) (s : LoopState) (t : Nat),
      t ∈ dispatchTimes (runLoop s es).snd → ∃ e ∈ es, e.time = t := by
  intro es
  induction es with
  | nil => intro s t ht; cases ht
  | cons e es ih =>
    intro s t ht
    rcases handleEvent_cases s e with h | ⟨h, _⟩
    · have hrw : runLoop s (e :: es) = runLoop s es := by
        simp only [runLoop, h]
      rw [hrw] at ht
      rcases ih s t ht with ⟨e2, he2, hte⟩
      exact ⟨e2, List.mem_cons_of_mem e he2, hte⟩
    · have hrw : runLoop s (e :: es) =
          (let r := runLoop { s with lastReload := e.time } es
           (r.fst, (e.name, e.time) :: r.snd)) := by
        simp only [runLoop, h]
      rw [hrw] at ht
      simp only [dispatchTimes, List.map_cons, List.mem_cons] at ht
      rcases ht with ht | ht
      · exact ⟨e, List.mem_cons_self e es, ht.symm⟩
      · rcases ih { s with lastReload := e.time } t ht with ⟨e2, he2, hte⟩
        exact ⟨e2, List.mem_cons_of_mem e he2, hte⟩

/-- C3.  Debounce invariant of `(*FileWatcher).loop`: over any chronological
event trace, (a) any two dispatched reloads are separated by at least the
configured debounce duration, measured at dispatch time (the time recorded
when the callback goroutine is spawned), and (b) if every event of the trace
arrives inside one debounce-length window, at most one reload is
dispatched. -/
theorem fileWatcher_dispatch_separation
    (files : List String) (debounce startTime : Nat) (es : List FsEvent)
    (hc : chronoFrom startTime es = true) :
    List.Pairwise (fun a b => a + debounce ≤ b)
      (dispatchTimes (runLoop ⟨files, debounce, startTime⟩ es).snd) ∧
    (∀ t0 : Nat, (∀ e ∈ es, t0 ≤ e.time ∧ e.time < t0 + debounce) →
      (dispatchTimes (runLoop ⟨files, debounce, startTime⟩ es).snd).length ≤ 1) := by
  have hsep := runLoop_sep debounce es ⟨files, debounce, startTime⟩ rfl hc
  constructor
  · exact sepFrom_pairwise debounce _ _ hsep
  · intro t0 hwin
    have hpw := sepFrom_pairwise debounce _ _ hsep
    rcases hd : dispatchTimes (runLoop ⟨files, debounce, startTime⟩ es).snd with
      _ | ⟨t1, _ | ⟨t2, rest⟩⟩
    · simp
    · simp
    · exfalso
      rw [hd] at hpw
      have h12 : t1 + debounce ≤ t2 := (List.pairwise_cons.mp hpw).1 t2 (by simp)
      have hm1 : t1 ∈ dispatchTimes (runLoop ⟨files, debounce, startTime⟩ es).snd := by
        rw [hd]; simp
      have hm2 : t2 ∈ dispatchTimes (runLoop ⟨files, debounce, startTime⟩ es).snd := by
        rw [hd]; simp
      rcases runLoop_dispatch_time_mem es _ t1 hm1 with ⟨e1, he1, hte1⟩
      rcases runLoop_dispatch_time_mem es _ t2 hm2 with ⟨e2, he2, hte2⟩
      have hb1 := hwin e1 he1
      have hb2 := hwin e2 he2
      omega

/-- Concrete run used by the C3 and C9 witnesses: one watched file, debounce
500ms, loop started at time 0. -/
def wEvt (t : Nat) : FsEvent :=
  ⟨"a", false, true, false, false, false, t, true⟩

theorem fileWatcher_dispatch_separation_witness :
    chronoFrom 0 [wEvt 600, wEvt 700, wEvt 800] = true ∧
    (List.Pairwise (fun a b => a + 500 ≤ b)
      (dispatchTimes (runLoop ⟨["a"], 500, 0⟩ [wEvt 600, wEvt 700, wEvt 800]).snd) ∧
    (∀ t0 : Nat, (∀ e ∈ [wEvt 600, wEvt 700, wEvt 800], t0 ≤ e.time ∧ e.time < t0 + 500) →
      (dispatchTimes (runLoop ⟨["a"], 500, 0⟩ [wEvt 600, wEvt 700, wEvt 800]).snd).length ≤ 1)) :=
  ⟨by decide, fileWatcher_dispatch_separation ["a"] 500 0 _ (by decide)⟩

/-- C9.  The loop records the loop start time as the initial `lastReload`;
therefore a chronological trace in which every event arrives strictly less
than one debounce duration after loop start dispatches no reload at all,
even though no reload was ever dispatched by this watcher. -/
theorem fileWatcher_initial_debounce
    (files : List String) (debounce startTime : Nat) (es : List FsEvent)
    (hc : chronoFrom startTime es = true)
    (hwin : ∀ e ∈ es, e.time < startTime + debounce) :
    (runLoop ⟨files, debounce, startTime⟩ es).snd = [] := by
  induction es with
  | nil => rfl
  | cons e es ih =>
    simp only [chronoFrom, Bool.and_eq_true, decide_eq_true_eq] at hc
    have hlt : e.time < startTime + debounce := hwin e (List.mem_cons_self e es)
    rcases handleEvent_cases ⟨files, debounce, startTime⟩ e with h | ⟨_, hle⟩
    · have hrw : runLoop ⟨files, debounce, startTime⟩ (e :: es) =
          runLoop ⟨files, debounce, startTime⟩ es := by
        simp only [runLoop, h]
      rw [hrw]
      exact ih (chronoFrom_weaken hc.1 es hc.2)
        (fun e2 he2 => hwin e2 (List.mem_cons_of_mem e he2))
    · exact absurd hle (by simp only [LoopState.lastReload]; omega)

theorem fileWatcher_initial_debounce_witness :
    chronoFrom 0 [wEvt 100, wEvt 499] = true ∧
    (∀ e ∈ [wEvt 100, wEvt 499], e.time < 0 + 500) ∧
    (runLoop ⟨["a"], 500, 0⟩ [wEvt 100, wEvt 499]).snd = [] :=
  ⟨by decide, by decide,
    fileWatcher_initial_debounce ["a"] 500 0 _ (by decide) (by decide)⟩

/-- Result of one run of the remove/rename recovery goroutine
(watcher.go:117-131): how many `watcher.Add` attempts were made, the sleeps
performed (in ms, in order), and whether re-registration succeeded.  The
recovery task has no way to dispatch a reload: its result carries no
callback invocation at all. -/
structure RecoveryResult where
  attempts : Nat
  sleeps : List Nat
  success : Bool
deriving DecidableEq, Repr

/-- The retry loop `for i := 0; i < 5; i++` of the recovery goroutine:
`addOk i` is whether the i-th `watcher.Add(filename)` call succeeds; on
success the goroutine returns at once; on failure it sleeps
`50*(1<<i)` ms and retries. -/
def recoveryGo (addOk : Nat → Bool) : Nat → Nat → RecoveryResult
  | _, 0 => ⟨0, [], false⟩
  | i, fuel + 1 =>
    if addOk i then ⟨1, [], true⟩
    else
      let r := recoveryGo addOk (i + 1) fuel
      ⟨r.attempts + 1, 50 * 2 ^ i :: r.sleeps, r.success⟩

/-- The whole recovery goroutine: an initial fixed 50ms sleep, then the
bounded retry loop with 5 attempts. -/
def recoveryTask (addOk : Nat → Bool) : RecoveryResult :=
  let r := recoveryGo addOk 0 5
  ⟨r.attempts, 50 :: r.sleeps, r.success⟩

theorem recoveryGo_attempts_le (addOk : Nat → Bool) :
    ∀ (fuel i : Nat), (recoveryGo addOk i fuel).attempts ≤ fuel := by
  intro fuel
  induction fuel with
  | zero => intro i; exact Nat.le_refl 0
  | succ n ih =>
    intro i
    unfold recoveryGo
    split
    · show 1 ≤ n + 1
      omega
    · show (recoveryGo addOk (i + 1) n).attempts + 1 ≤ n + 1
      have := ih (i + 1)
      omega

/-- Shifting the starting attempt index by one inside the backoff schedule. -/
theorem range_pow_shift (i m : Nat) :
    (List.range (m + 1)).map (fun k => 50 * 2 ^ (i + k)) =
      50 * 2 ^ i :: (List.range m).map (fun k => 50 * 2 ^ (i + 1 + k)) := by
  rw [List.range_succ_eq_map]
  simp only [List.map_cons, Nat.add_zero, List.map_map]
  congr 1
  apply List.map_congr_left
  intro a _
  simp only [Function.comp_apply]
  have heq : i + Nat.succ a = i + 1 + a := by omega
  rw [heq]

theorem recoveryGo_first_success (addOk : Nat → Bool) :
    ∀ (fuel i j : Nat), j < fuel → addOk (i + j) = true →
      (∀ k, k < j → addOk (i + k) = false) →
      recoveryGo addOk i fuel =
        ⟨j + 1, (List.range j).map (fun k => 50 * 2 ^ (i + k)), true⟩ := by
  intro fuel
  induction fuel with
  | zero => intro i j hj; omega
  | succ n ih =>
    intro i j hj hok hfail
    cases j with
    | zero =>
      unfold recoveryGo
      simp only [Nat.add_zero] at hok
      simp [hok]
    | succ m =>
      have h0 : addOk i = false := by
        have := hfail 0 (Nat.succ_pos m)
        simpa using this
      have hrec := ih (i + 1) m (by omega)
        (by rw [show i + 1 + m = i + (m + 1) by omega]; exact hok)
        (by
          intro k hk
          rw [show i + 1 + k = i + (k + 1) by omega]
          exact hfail (k + 1) (by omega))
      unfold recoveryGo
      rw [if_neg (by simp [h0]), hrec, range_pow_shift]

theorem recoveryGo_all_fail (addOk : Nat → Bool) :
    ∀ (fuel i : Nat), (∀ k, k < fuel → addOk (i + k) = false) →
      recoveryGo addOk i fuel =
        ⟨fuel, (List.range fuel).map (fun k => 50 * 2 ^ (i + k)), false⟩ := by
  intro fuel
  induction fuel with
  | zero => intro i _; rfl
  | succ n ih =>
    intro i hfail
    have h0 : addOk i = false := by simpa using hfail 0 (Nat.succ_pos n)
    have hrec := ih (i + 1) (by
      intro k hk
      rw [show i + 1 + k = i + (k + 1) by omega]
      exact hfail (k + 1) (by omega))
    unfold recoveryGo
    rw [if_neg (by simp [h0]), hrec, range_pow_shift]

/-- C4.  The remove/rename recovery policy of `(*FileWatcher).loop`:
the loop itself dispatches nothing for a Remove/Rename event and leaves the
debounce state untouched; the spawned recovery task first sleeps a fixed
50ms, makes at most 5 re-registration attempts, stops at the first success
(after the first failing attempts it has slept 50·2⁰, 50·2¹, … ms), and when
all 5 attempts fail it ends unsuccessfully — the path stays unmonitored —
having slept exactly 50, 50, 100, 200, 400, 800 ms. -/
theorem fileWatcher_recovery_policy (addOk : Nat → Bool) :
    (∀ (s : LoopState) (e : FsEvent), s.files.contains e.name = true →
      (e.remove = true ∨ e.rename = true) → handleEvent s e = (s, none)) ∧
    (recoveryTask addOk).attempts ≤ 5 ∧
    (recoveryTask addOk).sleeps.take 1 = [50] ∧
    (∀ j, j < 5 → addOk j = true → (∀ k, k < j → addOk k = false) →
      (recoveryTask addOk).success = true ∧
      (recoveryTask addOk).attempts = j + 1 ∧
      (recoveryTask addOk).sleeps = 50 :: (List.range j).map (fun k => 50 * 2 ^ k)) ∧
    ((∀ k, k < 5 → addOk k = false) →
      (recoveryTask addOk).success = false ∧
      (recoveryTask addOk).attempts = 5 ∧
      (recoveryTask addOk).sleeps = [50, 50, 100, 200, 400, 800]) := by
  refine ⟨?_, ?_, ?_, ?_, ?_⟩
  · intro s e hmon hre
    have hor : (e.remove || e.rename) = true := by
      rcases hre with h | h <;> simp [h]
    unfold handleEvent
    rw [if_neg (not_not_intro hmon), if_pos hor]
  · exact recoveryGo_attempts_le addOk 5 0
  · rfl
  · intro j hj hok hfail
    have hgo := recoveryGo_first_success addOk 5 0 j hj (by simpa using hok)
      (fun k hk => by simpa using hfail k hk)
    refine ⟨?_, ?_, ?_⟩ <;> simp [recoveryTask, hgo]
  · intro hfail
    have hgo := recoveryGo_all_fail addOk 5 0 (fun k hk => by simpa using hfail k hk)
    refine ⟨by simp [recoveryTask, hgo], by simp [recoveryTask, hgo], ?_⟩
    simp only [recoveryTask, hgo]
    decide

/-- Probe for the C4 witness: re-registration succeeds on the third attempt. -/
def recoveryProbe : Nat → Bool := fun i => decide (i = 2)

theorem fileWatcher_recovery_policy_witness :
    (recoveryTask recoveryProbe).success = true ∧
    (recoveryTask recoveryProbe).attempts = 3 ∧
    (recoveryTask recoveryProbe).sleeps =
      50 :: (List.range 2).map (fun k => 50 * 2 ^ k) :=
  (fileWatcher_recovery_policy recoveryProbe).2.2.2.1 2 (by decide) (by decide)
    (by decide)

/-- C6.  The Chmod guard of `(*FileWatcher).loop` (watcher.go:155-163): a
Chmod event on a monitored path is skipped — no dispatch and no change to
the debounce state — when `os.Stat` reports the path gone; when the path
still exists, the event goes through exactly the same debounce gate as a
Write event with the same name and time. -/
theorem fileWatcher_chmod_gate (s : LoopState) (e : FsEvent)
    (hmon : s.files.contains e.name = true)
    (hchmod : e.chmod = true)
    (hrm : e.remove = false) (hrn : e.rename = false) (hcr : e.create = false) :
    (e.fileExists = false → handleEvent s e = (s, none)) ∧
    (e.fileExists = true →
      handleEvent s e = handleEvent s { e with chmod := false, write := true }) := by
  constructor
  · intro hex
    unfold handleEvent
    rw [if_neg (not_not_intro hmon)]
    simp [hrm, hrn, hcr, hchmod, hex]
  · intro hex
    unfold handleEvent
    simp [hrm, hrn, hcr, hchmod, hex, hmon]

/-- Concrete monitored Chmod event used by the C6 witness. -/
def chmodEvt (ex : Bool) : FsEvent :=
  ⟨"a", false, false, false, false, true, 900, ex⟩

theorem fileWatcher_chmod_gate_witness :
    ((chmodEvt false).fileExists = false →
      handleEvent ⟨["a"], 500, 0⟩ (chmodEvt false) = (⟨["a"], 500, 0⟩, none)) ∧
    ((chmodEvt false).fileExists = true →
      handleEvent ⟨["a"], 500, 0⟩ (chmodEvt false) =
        handleEvent ⟨["a"], 500, 0⟩ { chmodEvt false with chmod := false, write := true }) :=
  fileWatcher_chmod_gate ⟨["a"], 500, 0⟩ (chmodEvt false) (by decide) (by decide)
    (by decide) (by decide) (by decide)

/-- An fsnotify watcher handle: the set of paths registered with the OS
mechanism (in `Add` order), and whether `Close` has been called on it. -/
structure WHandle where
  registered : List String
  closed : Bool
deriving DecidableEq, Repr

/-- A `FileWatcher` outside of its loop: the optional fsnotify handle
(`fw.watcher`, nil until `Start`), and the monitored-file set `fw.files`. -/
structure FileWatcherM where
  watcher : Option WHandle
  files : List String
deriving DecidableEq, Repr

/-- `NewFileWatcher`: `fw.watcher` is nil and `fw.files` is empty. -/
def NewFileWatcher : FileWatcherM :=
  ⟨none, []⟩

/-- The registration loop of `(*FileWatcher).Start` (watcher.go:64-70):
each path is passed to `w.Add`; on the first failure the method returns the
error at once, keeping whatever had been registered so far.  `addOk f` is
whether the OS accepts registration of `f`.  Returns the handle, the
accumulated `fw.files`, and whether an error was returned. -/
def startAddLoop (addOk : String → Bool) :
    List String → WHandle → List String → WHandle × List String × Bool
  | [], w, acc => (w, acc, false)
  | f :: fs, w, acc =>
    if addOk f then
      startAddLoop addOk fs ⟨w.registered ++ [f], w.closed⟩ (acc ++ [f])
    else (w, acc, true)

/-- `(*FileWatcher).Start` (watcher.go:55-75): create a fresh fsnotify
watcher (`newOk` is whether `fsnotify.NewWatcher` succeeds; on failure the
receiver is untouched and an error returned), replace `fw.watcher`, reset
`fw.files` to empty, then register every path in order; the boolean result
is whether `Start` returned a non-nil error. -/
def Start (newOk : Bool) (addOk : String → Bool) (fw : FileWatcherM)
    (files : List String) : FileWatcherM × Bool :=
  if newOk then
    let r := startAddLoop addOk files ⟨[], false⟩ []
    (⟨some r.fst, r.snd.fst⟩, r.snd.snd)
  else (fw, true)

/-- Closing an fsnotify handle.  fsnotify's `Close` is idempotent: a second
call on an already-closed watcher returns nil.  `closeErr` is whatever
error the OS release of a live handle produces (nil in the common case). -/
def closeHandle (closeErr : Option String) (w : WHandle) : Option String :=
  if w.closed then none else closeErr

/-- `(*FileWatcher).Close` (watcher.go:208-214): nil receiver watcher means
nothing to do and a nil error; otherwise close the fsnotify handle and
return its error. -/
def Close (closeErr : Option String) (fw : FileWatcherM) :
    FileWatcherM × Option String :=
  match fw.watcher with
  | none => (fw, none)
  | some w => (⟨some ⟨w.registered, true⟩, fw.files⟩, closeHandle closeErr w)

theorem startAddLoop_spec (addOk : String → Bool) :
    ∀ (fs : List String) (w : WHandle) (acc : List String),
      startAddLoop addOk fs w acc =
        (⟨w.registered ++ fs.takeWhile addOk, w.closed⟩,
          acc ++ fs.takeWhile addOk, !fs.all addOk) := by
  intro fs
  induction fs with
  | nil => intro w acc; simp [startAddLoop]
  | cons f fs ih =>
    intro w acc
    by_cases h : addOk f = true
    · simp [startAddLoop, h, ih, List.takeWhile_cons, List.all_cons]
    · have h2 : addOk f = false := by revert h; cases addOk f <;> simp
      simp [startAddLoop, h2, List.takeWhile_cons, List.all_cons]

/-- C5 (amended).  `(*FileWatcher).Start`: a failure of `fsnotify.NewWatcher`
returns an error with the receiver untouched; otherwise the previous watch
list is discarded entirely (the outcome is independent of the receiver's
prior state, so a second `Start` replaces rather than adds) and an error is
returned exactly when some path fails to register — but in that case the
construction is NOT all-or-nothing: the paths before the first failing one
remain registered, in `fw.files` as well as with the new OS handle. -/
theorem fileWatcher_start_spec (addOk : String → Bool) (fw : FileWatcherM)
    (files : List String) :
    (Start false addOk fw files = (fw, true)) ∧
    ((Start true addOk fw files).fst.files = files.takeWhile addOk) ∧
    ((Start true addOk fw files).fst.watcher =
      some ⟨files.takeWhile addOk, false⟩) ∧
    ((Start true addOk fw files).snd = !files.all addOk) ∧
    (∀ fw2 : FileWatcherM, Start true addOk fw files = Start true addOk fw2 files) := by
  refine ⟨rfl, ?_, ?_, ?_, ?_⟩
  · simp [Start, startAddLoop_spec]
  · simp [Start, startAddLoop_spec]
  · simp [Start, startAddLoop_spec]
  · intro fw2
    simp [Start]

/-- A previously started watcher, used by the C5 counterexample. -/
def fwPrev : FileWatcherM :=
  ⟨some ⟨["old"], false⟩, ["old"]⟩

/-- Registration outcome for the C5 counterexample: path "a" registers,
path "b" does not. -/
def addOkAB : String → Bool := fun f => decide (f = "a")

/-- C5 fails as stated: starting over `["a", "b"]` when "b" cannot be
registered returns an error, yet leaves a partially registered subscription
set in effect — `fw.files` is `["a"]`: not the previous set, and not empty. -/
theorem fileWatcher_start_partial_state :
    (Start true addOkAB fwPrev ["a", "b"]).snd = true ∧
    (Start true addOkAB fwPrev ["a", "b"]).fst.files = ["a"] ∧
    (Start true addOkAB fwPrev ["a", "b"]).fst.watcher = some ⟨["a"], false⟩ ∧
    (Start true addOkAB fwPrev ["a", "b"]).fst.files ≠ fwPrev.files ∧
    (Start true addOkAB fwPrev ["a", "b"]).fst.files ≠ [] := by
  decide

/-- C7.  `(*FileWatcher).Close` is an error-free no-op when `Start` was
never called (nil watcher); a repeated `Close` returns a nil error whatever
the first close of the handle returned; and once the event channel is
closed the loop processes nothing further — it exits before handling any
message that follows the close. -/
theorem fileWatcher_close_idempotent (fs : List String)
    (ce ce2 : Option String) (fw : FileWatcherM) :
    (Close ce ⟨none, fs⟩ = (⟨none, fs⟩, none)) ∧
    ((Close ce2 (Close ce fw).fst).snd = none) ∧
    (∀ (s : LoopState) (msgs : List (Option FsEvent)),
      runLoop s (takeUntilClosed (none :: msgs)) = (s, [])) := by
  refine ⟨rfl, ?_, ?_⟩
  · match fw with
    | ⟨none, f⟩ => rfl
    | ⟨some w, f⟩ => simp [Close, closeHandle]
  · intro s msgs
    rfl

/-- `MatcherGroup.Match` (ip_set part_001:207-214, and identically for the
domain-side group): try each member in order, return true at the first
member that matches, false when the loop ends.  A member matcher is an
opaque capability `α → Bool`. -/
def matcherGroupMatch {α : Type} : List (α → Bool) → α → Bool
  | [], _ => false
  | m :: ms, a => if m a then true else matcherGroupMatch ms a

theorem matcherGroupMatch_iff_exists {α : Type} (mg : List (α → Bool)) (a : α) :
    matcherGroupMatch mg a = true ↔ ∃ m ∈ mg, m a = true := by
  induction mg with
  | nil => simp [matcherGroupMatch]
  | cons m ms ih =>
    simp only [matcherGroupMatch]
    by_cases h : m a = true
    · simp [h]
    · have h2 : m a = false := by revert h; cases m a <;> simp
      simp [h2, ih]

/-- C8.  `MatcherGroup.Match` has OR semantics: it matches exactly when some
member matches; the empty group matches nothing; and its result is
invariant under any permutation of the members. -/
theorem matcherGroup_or_semantics {α : Type} (mg mg2 : List (α → Bool)) (a : α)
    (hp : mg.Perm mg2) :
    (matcherGroupMatch mg a = true ↔ ∃ m ∈ mg, m a = true) ∧
    (matcherGroupMatch ([] : List (α → Bool)) a = false) ∧
    (matcherGroupMatch mg a = matcherGroupMatch mg2 a) := by
  refine ⟨matcherGroupMatch_iff_exists mg a, rfl, ?_⟩
  cases hcase : matcherGroupMatch mg2 a with
  | true =>
    rcases (matcherGroupMatch_iff_exists mg2 a).mp hcase with ⟨m, hm, hma⟩
    exact (matcherGroupMatch_iff_exists mg a).mpr ⟨m, hp.mem_iff.mpr hm, hma⟩
  | false =>
    cases hcase2 : matcherGroupMatch mg a with
    | false => rfl
    | true =>
      rcases (matcherGroupMatch_iff_exists mg a).mp hcase2 with ⟨m, hm, hma⟩
      have := (matcherGroupMatch_iff_exists mg2 a).mpr ⟨m, hp.mem_iff.mp hm, hma⟩
      rw [hcase] at this
      exact this.symm

/-- Member matchers of the C8 witness group. -/
def mgW1 : Nat → Bool := fun n => decide (n = 1)

/-- Second member matcher of the C8 witness group. -/
def mgW2 : Nat → Bool := fun n => decide (n = 2)

theorem matcherGroup_or_semantics_witness :
    (matcherGroupMatch [mgW1, mgW2] 2 = true ↔ ∃ m ∈ [mgW1, mgW2], m 2 = true) ∧
    (matcherGroupMatch ([] : List (Nat → Bool)) 2 = false) ∧
    (matcherGroupMatch [mgW1, mgW2] 2 = matcherGroupMatch [mgW2, mgW1] 2) :=
  matcherGroup_or_semantics [mgW1, mgW2] [mgW2, mgW1] 2
    (List.Perm.swap mgW2 mgW1 [])

/-- Modelled from the spec: `netlist.List` (package `pkg/matcher/netlist`,
outside the covered slice; the spec treats concrete matcher formats as
opaque membership capabilities).  The list is the sequence of appended
prefixes, each represented by an opaque token; `Match` is membership. -/
def netlistMatch (l : List Nat) (a : Nat) : Bool :=
  l.contains a

/-- Insertion step of `netlist.List.Sort`. -/
def insortNat (a : Nat) : List Nat → List Nat
  | [] => [a]
  | b :: bs => if a ≤ b then a :: b :: bs else b :: insortNat a bs

/-- Modelled from the spec: `netlist.List.Sort` orders the stored prefixes
(for lookup performance only; membership is unaffected). -/
def sortNat : List Nat → List Nat
  | [] => []
  | a :: xs => insortNat a (sortNat xs)

/-- The indexed loop of `LoadFromIPs` (ip_set part_001:166-175): parse each
entry with `parseNetipPrefix` (modelled by the parameter `parseIP`, since
`netip` parsing is a stdlib collaborator) and append it; the first bad
entry aborts with an error naming its index and text. -/
def loadIPsFrom (parseIP : String → Option Nat) :
    Nat → List String → List Nat → Except String (List Nat)
  | _, [], l => Except.ok l
  | i, s :: ss, l =>
    match parseIP s with
    | none => Except.error ("invalid ip #" ++ toString i ++ " " ++ s)
    | some p => loadIPsFrom parseIP (i + 1) ss (l ++ [p])

/-- `LoadFromIPs` of ip_set. -/
def LoadFromIPs (parseIP : String → Option Nat) (ips : List String)
    (l : List Nat) : Except String (List Nat) :=
  loadIPsFrom parseIP 0 ips l

/-- Modelled from the spec: `netlist.LoadFromReader` (out-of-scope text
format) — every line of the file is one prefix entry; a bad line aborts. -/
def LoadFromReader (parseIP : String → Option Nat) :
    List String → List Nat → Except String (List Nat)
  | [], l => Except.ok l
  | ln :: lns, l =>
    match parseIP ln with
    | none => Except.error ("invalid entry " ++ ln)
    | some p => LoadFromReader parseIP lns (l ++ [p])

/-- `LoadFromFile` of ip_set (part_001:190-201): an empty path is a no-op
returning nil; otherwise the file is read (`fsys` gives its lines, `none`
meaning `os.ReadFile` fails) and fed to the reader.  The second component
records which paths were read. -/
def LoadFromFile (parseIP : String → Option Nat)
    (fsys : String → Option (List String)) (f : String) (l : List Nat) :
    Except String (List Nat) × List String :=
  if 0 < f.length then
    match fsys f with
    | none => (Except.error ("read file " ++ f ++ " failed"), [f])
    | some lns => (LoadFromReader parseIP lns l, [f])
  else (Except.ok l, [])

/-- The indexed loop of `LoadFromFiles` (part_001:179-186). -/
def loadIPFilesFrom (parseIP : String → Option Nat)
    (fsys : String → Option (List String)) :
    Nat → List String → List Nat → Except String (List Nat)
  | _, [], l => Except.ok l
  | i, f :: fs, l =>
    match (LoadFromFile parseIP fsys f l).fst with
    | Except.error e =>
      Except.error ("failed to load file #" ++ toString i ++ " " ++ f ++ ", " ++ e)
    | Except.ok l2 => loadIPFilesFrom parseIP fsys (i + 1) fs l2

/-- `LoadFromFiles` of ip_set. -/
def LoadFromFiles (parseIP : String → Option Nat)
    (fsys : String → Option (List String)) (fs : List String) (l : List Nat) :
    Except String (List Nat) :=
  loadIPFilesFrom parseIP fsys 0 fs l

/-- `LoadFromIPsAndFiles` of ip_set (part_001:154-162). -/
def LoadFromIPsAndFiles (parseIP : String → Option Nat)
    (fsys : String → Option (List String)) (ips fs : List String)
    (l : List Nat) : Except String (List Nat) :=
  match LoadFromIPs parseIP ips l with
  | Except.error e => Except.error e
  | Except.ok l2 => LoadFromFiles parseIP fsys fs l2

/-- The `ips`/`sets`/`files` fields of ip_set `Args`. -/
structure IPSetArgs where
  ips : List String
  sets : List String
  files : List String
deriving DecidableEq, Repr

/-- The `args.Sets` loop of `(*IPSet).rebuildMatcher` (part_001:95-102):
each tag is resolved through the plugin registry (`registry t = none` models
"the plugin under tag `t` is not an IPMatcherProvider"); each resolved
matcher is appended DIRECTLY to the published `p.mg`; on a bad tag the
error returns with the appends made so far kept. -/
def ipAddSets (registry : String → Option (List Nat)) :
    List String → List (List Nat) → List (List Nat) × Option String
  | [], mg => (mg, none)
  | t :: ts, mg =>
    match registry t with
    | none => (mg, some (t ++ " is not an IPMatcherProvider"))
    | some e => ipAddSets registry ts (mg ++ [e])

/-- `(*IPSet).rebuildMatcher` (part_001:82-105): build a fresh netlist from
`args.IPs` and `args.Files`, sort it, and — when non-empty — append it to
the existing `p.mg` (the Go code never resets `p.mg`); then append every
matcher resolved from `args.Sets`.  Returns the new `p.mg` and the error
returned by the method, mirroring that `p.mg` keeps any mutation made
before an error. -/
def ipSetRebuildMatcher (parseIP : String → Option Nat)
    (fsys : String → Option (List String))
    (registry : String → Option (List Nat)) (args : IPSetArgs)
    (mg : List (List Nat)) : List (List Nat) × Option String :=
  match LoadFromIPsAndFiles parseIP fsys args.ips args.files [] with
  | Except.error e => (mg, some ("failed to load files: " ++ e))
  | Except.ok l =>
    let ls := sortNat l
    let mg2 := if 0 < ls.length then mg ++ [ls] else mg
    ipAddSets registry args.sets mg2

/-- `(*IPSet).GetIPMatcher` (part_001:75-77): wrap the current `p.mg` into
a `MatcherGroup` and match through it. -/
def GetIPMatcher (mg : List (List Nat)) (a : Nat) : Bool :=
  matcherGroupMatch (mg.map netlistMatch) a

/-- Modelled from the spec: `domain.MixMatcher` (package
`pkg/matcher/domain`, outside the covered slice) is represented by its
entry list; whether `m.Add(exp)` parses is the parameter `addOkD`; `Match`
is membership of the candidate in the entry set. -/
def mixMatcherMatch (entries : List String) (d : String) : Bool :=
  entries.contains d

/-- The indexed loop of domain_set `LoadExps` (part_000:171-178): add each
expression; a bad one aborts with an error naming its index and text. -/
def loadExpsFrom (addOkD : String → Bool) :
    Nat → List String → List String → Except String (List String)
  | _, [], m => Except.ok m
  | i, e :: es, m =>
    if addOkD e then loadExpsFrom addOkD (i + 1) es (m ++ [e])
    else Except.error ("failed to load expression #" ++ toString i ++ " " ++ e)

/-- `LoadExps` of domain_set. -/
def LoadExps (addOkD : String → Bool) (exps : List String) (m : List String) :
    Except String (List String) :=
  loadExpsFrom addOkD 0 exps m

/-- Modelled from the spec: `domain.LoadFromTextReader` (out-of-scope text
format) — every line of the file is one domain entry; a bad line aborts. -/
def LoadFromTextReader (addOkD : String → Bool) :
    List String → List String → Except String (List String)
  | [], m => Except.ok m
  | ln :: lns, m =>
    if addOkD ln then LoadFromTextReader addOkD lns (m ++ [ln])
    else Except.error ("invalid entry " ++ ln)

/-- `LoadFile` of domain_set (part_000:193-205): an empty path is a no-op
returning nil; otherwise the file is read and fed to the text reader.  The
second component records which paths were read. -/
def LoadFile (addOkD : String → Bool) (fsys : String → Option (List String))
    (f : String) (m : List String) :
    Except String (List String) × List String :=
  if 0 < f.length then
    match fsys f with
    | none => (Except.error ("read file " ++ f ++ " failed"), [f])
    | some lns => (LoadFromTextReader addOkD lns m, [f])
  else (Except.ok m, [])

/-- The indexed loop of domain_set `LoadFiles` (part_000:182-189). -/
def loadDomFilesFrom (addOkD : String → Bool)
    (fsys : String → Option (List String)) :
    Nat → List String → List String → Except String (List String)
  | _, [], m => Except.ok m
  | i, f :: fs, m =>
    match (LoadFile addOkD fsys f m).fst with
    | Except.error e =>
      Except.error ("failed to load file #" ++ toString i ++ " " ++ f ++ ", " ++ e)
    | Except.ok m2 => loadDomFilesFrom addOkD fsys (i + 1) fs m2

/-- `LoadFiles` of domain_set. -/
def LoadFiles (addOkD : String → Bool) (fsys : String → Option (List String))
    (fs : List String) (m : List String) : Except String (List String) :=
  loadDomFilesFrom addOkD fsys 0 fs m

/-- `LoadExpsAndFiles` of domain_set (part_000:159-167). -/
def LoadExpsAndFiles (addOkD : String → Bool)
    (fsys : String → Option (List String)) (exps fs : List String)
    (m : List String) : Except String (List String) :=
  match LoadExps addOkD exps m with
  | Except.error e => Except.error e
  | Except.ok m2 => LoadFiles addOkD fsys fs m2

/-- The `exps`/`sets`/`files` fields of domain_set `Args`. -/
structure DomainArgs where
  exps : List String
  sets : List String
  files : List String
deriving DecidableEq, Repr

/-- The `args.Sets` loop of `(*DomainSet).rebuildMatcher`
(part_000:108-116): tags are resolved through the registry and appended to
the LOCAL `matchers` slice (not to the published group); a bad tag aborts
with an error. -/
def domAddSets (registry : String → Option (List String)) :
    List String → List (List String) → List (List String) × Option String
  | [], ms => (ms, none)
  | t :: ts, ms =>
    match registry t with
    | none => (ms, some (t ++ " is not a DomainMatcherProvider"))
    | some e => domAddSets registry ts (ms ++ [e])

/-- `(*DomainSet).rebuildMatcher` (part_000:88-125): build a local matcher
list from expressions and files, append the matchers of referenced sibling
plugins, and only on full success publish the new group through
`DynamicMatcherGroup.Update`, which replaces the previous group (Update is
modelled from the spec: the dynamic group holds exactly one current group
and `Update` swaps it atomically — its source file is outside the covered
slice).  Returns the published group after the call (unchanged on error)
and the error. -/
def domainRebuildMatcher (addOkD : String → Bool)
    (fsys : String → Option (List String))
    (registry : String → Option (List String)) (args : DomainArgs)
    (current : List (List String)) : List (List String) × Option String :=
  match
    (if 0 < args.exps.length || 0 < args.files.length then
      match LoadExpsAndFiles addOkD fsys args.exps args.files [] with
      | Except.error e => Except.error ("failed to load exprs and files: " ++ e)
      | Except.ok m => Except.ok (if 0 < m.length then [m] else [])
    else Except.ok ([] : List (List String)))
  with
  | Except.error e => (current, some e)
  | Except.ok matchers =>
    match domAddSets registry args.sets matchers with
    | (ms, none) => (ms, none)
    | (_, some e) => (current, some e)

/-- `(*DomainSet).GetDomainMatcher` returns the dynamic group; a lookup
evaluates the currently published matcher list with OR semantics. -/
def GetDomainMatcher (current : List (List String)) (d : String) : Bool :=
  matcherGroupMatch (current.map mixMatcherMatch) d

/-- The domain_set rebuild path is all-or-nothing: whenever it returns an
error, the published group is exactly the one from before the call. -/
theorem domainRebuild_all_or_nothing (addOkD : String → Bool)
    (fsys : String → Option (List String))
    (registry : String → Option (List String)) (args : DomainArgs)
    (current : List (List String)) (e : String)
    (h : (domainRebuildMatcher addOkD fsys registry args current).snd = some e) :
    (domainRebuildMatcher addOkD fsys registry args current).fst = current := by
  unfold domainRebuildMatcher at h ⊢
  split at h
  · rfl
  · split at h
    · simp at h
    · rfl

/-- Prefix parser for the concrete ip_set runs below: the tokens "1", "2"
and "9" parse, everything else fails. -/
def parseProbe : String → Option Nat := fun s =>
  if s = "1" then some 1 else if s = "2" then some 2
  else if s = "9" then some 9 else none

/-- Registry for the C1 run: tag "good" is an IPMatcherProvider, any other
tag is not. -/
def regGoodBad : String → Option (List Nat) := fun t =>
  if t = "good" then some [5] else none

/-- C1 fails on the ip_set path (the domain_set path is all-or-nothing, see
`domainRebuild_all_or_nothing`): rebuilding with published group `[[9]]`,
one valid ip "1" and the sets list `["bad"]`, where "bad" is not an
IPMatcherProvider, returns the descriptive error — but the published group
has already been mutated to `[[9], [1]]`: the previously published matcher
state was not left as it was. -/
theorem ipSet_rebuild_partial_mutation :
    (ipSetRebuildMatcher parseProbe (fun _ => none) regGoodBad
        ⟨["1"], ["bad"], []⟩ [[9]]).snd = some "bad is not an IPMatcherProvider" ∧
    (ipSetRebuildMatcher parseProbe (fun _ => none) regGoodBad
        ⟨["1"], ["bad"], []⟩ [[9]]).fst = [[9], [1]] ∧
    (ipSetRebuildMatcher parseProbe (fun _ => none) regGoodBad
        ⟨["1"], ["bad"], []⟩ [[9]]).fst ≠ [[9]] := by
  decide

/-- File system before the reload: watched file "f" holds the entry "1". -/
def fsOld : String → Option (List String) := fun f =>
  if f = "f" then some ["1"] else none

/-- File system after the edit: watched file "f" now holds only "2". -/
def fsNew : String → Option (List String) := fun f =>
  if f = "f" then some ["2"] else none

/-- C2 fails on the ip_set path: after a successful rebuild from the old
file content and a second successful rebuild from the new content (entry
"1" replaced by "2"), the published ip_set group still matches the old
entry 1 — the new matcher was appended to the old group, not swapped in.
The domain_set path, by contrast, does replace: after the same pair of
rebuilds, lookup of the old entry is false and of the new entry true. -/
theorem ipSet_rebuild_accumulates :
    (ipSetRebuildMatcher parseProbe fsOld (fun _ => none) ⟨[], [], ["f"]⟩ [])
      = ([[1]], none) ∧
    (ipSetRebuildMatcher parseProbe fsNew (fun _ => none) ⟨[], [], ["f"]⟩ [[1]])
      = ([[1], [2]], none) ∧
    GetIPMatcher [[1], [2]] 1 = true ∧
    GetIPMatcher [[1], [2]] 2 = true ∧
    (domainRebuildMatcher (fun _ => true) fsOld (fun _ => none) ⟨[], [], ["f"]⟩ [])
      = ([["1"]], none) ∧
    (domainRebuildMatcher (fun _ => true) fsNew (fun _ => none) ⟨[], [], ["f"]⟩ [["1"]])
      = ([["2"]], none) ∧
    GetDomainMatcher [["2"]] "1" = false ∧
    GetDomainMatcher [["2"]] "2" = true := by
  decide

/-- C10.  The single-file loaders treat the empty path as a successful
no-op: `LoadFile("", m)` (domain_set) and `LoadFromFile("", l)` (ip_set)
return nil without reading anything and leave the target untouched; for a
non-empty path the file is read (exactly that one path) and its contents
are loaded through the respective reader. -/
theorem loadFile_empty_noop (addOkD : String → Bool)
    (parseIP : String → Option Nat) (fsysD fsysN : String → Option (List String))
    (m : List String) (l : List Nat) (f : String) (hf : 0 < f.length) :
    (LoadFile addOkD fsysD "" m = (Except.ok m, [])) ∧
    (LoadFromFile parseIP fsysN "" l = (Except.ok l, [])) ∧
    ((LoadFile addOkD fsysD f m).snd = [f]) ∧
    ((LoadFile addOkD fsysD f m).fst =
      match fsysD f with
      | none => Except.error ("read file " ++ f ++ " failed")
      | some lns => LoadFromTextReader addOkD lns m) ∧
    ((LoadFromFile parseIP fsysN f l).snd = [f]) ∧
    ((LoadFromFile parseIP fsysN f l).fst =
      match fsysN f with
      | none => Except.error ("read file " ++ f ++ " failed")
      | some lns => LoadFromReader parseIP lns l) := by
  refine ⟨rfl, rfl, ?_, ?_, ?_, ?_⟩
  · unfold LoadFile
    rw [if_pos hf]
    cases fsysD f <;> rfl
  · unfold LoadFile
    rw [if_pos hf]
    cases fsysD f <;> rfl
  · unfold LoadFromFile
    rw [if_pos hf]
    cases fsysN f <;> rfl
  · unfold LoadFromFile
    rw [if_pos hf]
    cases fsysN f <;> rfl

theorem loadFile_empty_noop_witness :
    (0 < "x".length) ∧
    (LoadFile (fun _ => true) (fun _ => none) "" ["m"] = (Except.ok ["m"], [])) ∧
    (LoadFromFile parseProbe (fun _ => none) "" [7] = (Except.ok [7], [])) ∧
    ((LoadFile (fun _ => true) (fun _ => none) "x" ["m"]).snd = ["x"]) ∧
    ((LoadFile (fun _ => true) (fun _ => none) "x" ["m"]).fst =
      match (fun (_ : String) => (none : Option (List String))) "x" with
      | none => Except.error ("read file " ++ "x" ++ " failed")
      | some lns => LoadFromTextReader (fun _ => true) lns ["m"]) ∧
    ((LoadFromFile parseProbe (fun _ => none) "x" [7]).snd = ["x"]) ∧
    ((LoadFromFile parseProbe (fun _ => none) "x" [7]).fst =
      match (fun (_ : String) => (none : Option (List String))) "x" with
      | none => Except.error ("read file " ++ "x" ++ " failed")
      | some lns => LoadFromReader parseProbe lns [7]) :=
  ⟨by decide,
    loadFile_empty_noop (fun _ => true) parseProbe (fun _ => none) (fun _ => none)
      ["m"] [7] "x" (by decide)⟩
